import Mathlib

/-!
Verification development for the websocket subscription client in
`rpc/ws.go` (package `rpc` of solana-go).

The Go code is shallowly embedded as follows.

* Go pointers to `Subscription` objects are modelled by a heap:
  an association list from abstract addresses (`Nat`) to `Subscription`
  values.  The two registry maps `subscriptionByRequestID` and
  `subscriptionByWSSubID` map ids to heap addresses, so that a mutation
  performed through one index is observed through the other, exactly as
  with shared pointers in Go.
* Go buffered channels are modelled by lists of queued elements together
  with an explicit capacity check; a send that would block (channel full)
  and a runtime panic are both modelled by an operation returning `none`.
* The inbound JSON frames are modelled by a `Frame` structure recording
  exactly the fields the source inspects (via gjson and via
  `json.Decode` into `wsClientResponse`); gjson's `Int()` on an absent
  field yields `0`, and `Exists()` on the `id` key is the `hasId` flag.
* `rand.Int63()` request ids, and the success of `json.Marshal` /
  `conn.WriteMessage`, are inputs of the embedded operations.
-/

set_option maxRecDepth 8000

namespace SolanaWS

/-- A Go `interface{}` value carried on a `chan result`: either the nil
interface or an opaque decoded payload (abstracted by a number). -/
inductive GoVal where
  | nil : GoVal
  | val : Nat → GoVal
deriving DecidableEq

/-- Content of the inbound `"error"` field: either bytes that unmarshal
into a `json2.Error` (code and message) or raw bytes that do not. -/
inductive ErrPayload where
  | structured : Int → String → ErrPayload
  | raw : String → ErrPayload
deriving DecidableEq

/-- Go `error` values produced by the code under study (a Go `error` may
also be nil; a possibly-nil error is `Option WSError`). -/
inductive WSError where
  | transport : Nat → WSError
  | jsonDecode : WSError
  | serverErr : Int → String → WSError
  | serverRaw : String → WSError
  | nullResult : WSError
  | unableToDecode : WSError → WSError
  | capacity : Nat → WSError
deriving DecidableEq

/-- The raw bytes under `params.result` of a notification frame: either
they unmarshal into the subscription's result type or they do not. -/
inductive Payload where
  | decodable : Nat → Payload
  | undecodable : Payload
deriving DecidableEq

/-- The `params` object of an inbound frame (`wsClientResponseParams`):
`subscription` is an int (0 when the key is absent), `result` is a
`*json.RawMessage` (none models a nil pointer). -/
structure FrameParams where
  subscription : Nat
  result : Option Payload
deriving DecidableEq

/-- An inbound frame, recording the fields `handleMessage` and
`decodeClientResponse` inspect.  `hasId` is gjson `GetBytes(m,"id").Exists()`
(true also for an explicit JSON null); `idVal` and `result` are the gjson
`Int()` values (0 when absent); `params` and `errorField` are the
`wsClientResponse` fields; `malformed` makes the top-level `json.Decode`
fail. -/
structure Frame where
  hasId : Bool
  idVal : Nat
  result : Nat
  params : Option FrameParams
  errorField : Option ErrPayload
  malformed : Bool
deriving DecidableEq

/-- gjson `GetBytes(message, "params.subscription").Int()`: 0 when the
path is absent. -/
def Frame.paramsSubscription (f : Frame) : Nat :=
  match f.params with
  | none => 0
  | some p => p.subscription

/-- The relevant fields of `clientRequest` (version and params play no
role in the routing logic). -/
structure ClientRequest where
  method : String
  ID : Nat
deriving DecidableEq

/-- One `Subscription` object (`type Subscription struct`).  `stream`
and `errSlot` are the queued contents of the buffered channels
`stream chan result` (capacity 200) and `err chan error` (capacity 1);
`reflectType` abstracts the `reflect.Type` descriptor.  The source's
`newSubscription` never assigns `unsubscriptionMethod`, so subscriptions
it builds carry the zero value `""`. -/
structure Subscription where
  req : ClientRequest
  subID : Nat
  stream : List GoVal
  errSlot : List (Option WSError)
  reflectType : Nat
  unsubscriptionMethod : String
deriving DecidableEq

/-- Capacity of the delivery pipe: `make(chan result, 200)`. -/
def streamCapacity : Nat := 200

/-- The mutable state of a `WSClient`, with the pointer heap made
explicit.  `sentUnsubs` records the unsubscribe requests
`rpcUnsubscribe` attempts to write (subscription id and method). -/
structure WSState where
  heap : List (Nat × Subscription)
  nextAddr : Nat
  byRequestID : List (Nat × Nat)
  byWSSubID : List (Nat × Nat)
  sentUnsubs : List (Nat × String)
deriving DecidableEq

/-- Go map read `m[k]` (comma-ok form gives `none` on a miss). -/
def mapLookup {α : Type} : List (Nat × α) → Nat → Option α
  | [], _ => none
  | (k, v) :: rest, k2 => if k2 = k then some v else mapLookup rest k2

/-- Go `delete(m, k)`. -/
def mapErase {α : Type} : List (Nat × α) → Nat → List (Nat × α)
  | [], _ => []
  | (k, v) :: rest, k2 => if k = k2 then mapErase rest k2 else (k, v) :: mapErase rest k2

/-- Go map write `m[k] = v`. -/
def mapInsert {α : Type} (m : List (Nat × α)) (k : Nat) (v : α) : List (Nat × α) :=
  (k, v) :: mapErase m k

/-- Send on the capacity-one buffered channel `err chan error`
(`sub.err <- e`); `none` models a send that blocks forever. -/
def chanSend1 (slot : List (Option WSError)) (e : Option WSError) :
    Option (List (Option WSError)) :=
  if slot.length < 1 then some (slot ++ [e]) else none

/-- `json.Unmarshal(*c.Params.Result, &reply)`. -/
def unmarshalPayload : Payload → Except WSError GoVal
  | .decodable v => .ok (.val v)
  | .undecodable => .error .jsonDecode

/-- Decoding the `"error"` field: try `json.Unmarshal` into a
`json2.Error`; fall back to an `E_SERVER` error wrapping the raw bytes. -/
def errPayloadToError : ErrPayload → WSError
  | .structured c m => .serverErr c m
  | .raw s => .serverRaw s

/-- Embeds `decodeClientResponse` (ws.go): decode the envelope, surface
the `"error"` field if present, reject a nil `params`, else unmarshal
`params.result` into the reply.  The outer `none` models the Go panic
when `params` is present but `params.result` is a nil pointer (the
source dereferences `*c.Params.Result` unconditionally). -/
def decodeClientResponse (f : Frame) : Option (Except WSError GoVal) :=
  if f.malformed then some (.error .jsonDecode)
  else
    match f.errorField with
    | some ep => some (.error (errPayloadToError ep))
    | none =>
      match f.params with
      | none => some (.error .nullResult)
      | some p =>
        match p.result with
        | none => none
        | some payload => some (unmarshalPayload payload)

/-- Embeds `newSubscription`: fresh subscription with empty channels.
The source never assigns `unsubscriptionMethod`, leaving the zero value. -/
def newSubscription (req : ClientRequest) (reflectType : Nat) : Subscription :=
  { req := req
    subID := 0
    stream := []
    errSlot := []
    reflectType := reflectType
    unsubscriptionMethod := "" }

/-- Embeds `rpcUnsubscribe`: encodes and writes an unsubscribe request.
A write failure is only logged by the caller and changes no registry
state, so the model just records the attempted request. -/
def rpcUnsubscribe (st : WSState) (subID : Nat) (method : String) : WSState :=
  { st with sentUnsubs := st.sentUnsubs ++ [(subID, method)] }

/-- Embeds `closeSubscription`: look up by request id (no-op when
absent), push `e` into the error slot (`none` result models the send
blocking on a full slot, and the unreachable case of an index entry
whose address is not in the heap), attempt the unsubscribe request, and
delete the entry from both indices. -/
def closeSubscription (st : WSState) (reqID : Nat) (e : Option WSError) :
    Option WSState :=
  match mapLookup st.byRequestID reqID with
  | none => some st
  | some addr =>
    match mapLookup st.heap addr with
    | none => none
    | some sub =>
      match chanSend1 sub.errSlot e with
      | none => none
      | some slot2 =>
        let st1 := { st with heap := mapInsert st.heap addr { sub with errSlot := slot2 } }
        let st2 := rpcUnsubscribe st1 sub.subID sub.unsubscriptionMethod
        some { st2 with
          byRequestID := mapErase st2.byRequestID sub.req.ID
          byWSSubID := mapErase st2.byWSSubID sub.subID }

/-- The loop body of `closeAllSubscription`: push `e` into the error
slot of every subscription reachable from the given index entries. -/
def pushErrAll (heap : List (Nat × Subscription)) (entries : List (Nat × Nat))
    (e : Option WSError) : Option (List (Nat × Subscription)) :=
  match entries with
  | [] => some heap
  | (_, addr) :: rest =>
    match mapLookup heap addr with
    | none => none
    | some sub =>
      match chanSend1 sub.errSlot e with
      | none => none
      | some slot2 =>
        pushErrAll (mapInsert heap addr { sub with errSlot := slot2 }) rest e

/-- Embeds `closeAllSubscription`: push the error into every
subscription held by `subscriptionByRequestID`, then reset both maps. -/
def closeAllSubscription (st : WSState) (e : Option WSError) : Option WSState :=
  match pushErrAll st.heap st.byRequestID e with
  | none => none
  | some heap2 => some { st with heap := heap2, byRequestID := [], byWSSubID := [] }

/-- Embeds `handleNewSubscriptionMessage`.  The source reads
`c.subscriptionByRequestID[requestID]` without a comma-ok check and
immediately writes `callBack.subID = subID`; on a miss the map read
yields a nil pointer and the write panics, modelled by `none`. -/
def handleNewSubscriptionMessage (st : WSState) (requestID subID : Nat) :
    Option WSState :=
  match mapLookup st.byRequestID requestID with
  | none => none
  | some addr =>
    match mapLookup st.heap addr with
    | none => none
    | some sub =>
      some { st with
        heap := mapInsert st.heap addr { sub with subID := subID }
        byWSSubID := mapInsert st.byWSSubID subID addr }

/-- Embeds `handleSubscriptionMessage`: look up the active index (log
and drop on a miss), decode the payload (decode failure closes the
subscription with a wrapped error), close with a capacity error when
the delivery pipe is full, otherwise push the decoded result. -/
def handleSubscriptionMessage (st : WSState) (subID : Nat) (f : Frame) :
    Option WSState :=
  match mapLookup st.byWSSubID subID with
  | none => some st
  | some addr =>
    match mapLookup st.heap addr with
    | none => none
    | some sub =>
      match decodeClientResponse f with
      | none => none
      | some (.error e) =>
        closeSubscription st sub.req.ID (some (.unableToDecode e))
      | some (.ok v) =>
        if streamCapacity ≤ sub.stream.length then
          closeSubscription st sub.req.ID (some (.capacity sub.stream.length))
        else
          some { st with heap := mapInsert st.heap addr { sub with stream := sub.stream ++ [v] } }

/-- Embeds `handleMessage`: a frame whose `"id"` key exists is treated
as an acknowledgement (request id and numeric `"result"` extracted by
gjson); any other frame is routed by `params.subscription`. -/
def handleMessage (st : WSState) (f : Frame) : Option WSState :=
  if f.hasId then handleNewSubscriptionMessage st f.idVal f.result
  else handleSubscriptionMessage st f.paramsSubscription f

/-- One iteration of `receiveMessages`: a transport read error runs
`closeAllSubscription` and ends the loop; a frame is handled. -/
def receiveMessagesStep (st : WSState) (readResult : Except WSError Frame) :
    Option WSState :=
  match readResult with
  | .error e => closeAllSubscription st (some e)
  | .ok f => handleMessage st f

/-- Processing a sequence of inbound frames by the reader loop. -/
def processMessages (st : WSState) : List Frame → Option WSState
  | [] => some st
  | f :: rest =>
    match handleMessage st f with
    | none => none
    | some st2 => processMessages st2 rest

/-- Embeds `(c *WSClient).subscribe`.  `reqId` stands for the
`rand.Int63()` request id; `encodeOk` and `writeOk` are the outcomes of
`req.encode()` and `conn.WriteMessage`.  The subscription is registered
as pending before the write; note the source does not undo the
registration when the write fails.  Returns the heap address of the
delivered handle or the synchronous error. -/
def subscribe (st : WSState) (reqId : Nat) (encodeOk writeOk : Bool)
    (subscriptionMethod unsubscriptionMethod : String) (resultType : Nat) :
    WSState × Except String Nat :=
  if !encodeOk then
    (st, .error "subscribe: unable to encode subsciption request")
  else
    let req : ClientRequest := { method := subscriptionMethod, ID := reqId }
    let sub := newSubscription req resultType
    let st1 := { st with
      heap := mapInsert st.heap st.nextAddr sub
      byRequestID := mapInsert st.byRequestID reqId st.nextAddr
      nextAddr := st.nextAddr + 1 }
    if !writeOk then (st1, .error "unable to write request")
    else (st1, .ok st.nextAddr)

/-- Embeds `(s *Subscription).Recv`: a `select` over the two channels.
When both have queued values Go picks a ready case pseudo-randomly; the
`choice` argument resolves that nondeterminism (`true` picks the
stream).  `none` models the select blocking with both channels empty.
The returned pair is Go's `(interface{}, error)`: the stream case
returns `(d, nil)`, the error case `(nil, err)`. -/
def Recv (choice : Bool) (sub : Subscription) :
    Option ((GoVal × Option WSError) × Subscription) :=
  match sub.stream, sub.errSlot with
  | [], [] => none
  | d :: rest, [] => some ((d, none), { sub with stream := rest })
  | [], e :: erest => some ((GoVal.nil, e), { sub with errSlot := erest })
  | d :: rest, e :: erest =>
    if choice then some ((d, none), { sub with stream := rest })
    else some ((GoVal.nil, e), { sub with errSlot := erest })

/-- Embeds `(s *Subscription).Unsubscribe`: runs the close callback
installed by `subscribe`, which is `closeSubscription(req.ID, nil)`. -/
def Unsubscribe (st : WSState) (addr : Nat) : Option WSState :=
  match mapLookup st.heap addr with
  | none => none
  | some sub => closeSubscription st sub.req.ID none

/-- `n` successive `Recv` calls, collecting the returned pairs. -/
def recvN (choice : Bool) :
    Nat → Subscription → Option (List (GoVal × Option WSError) × Subscription)
  | 0, sub => some ([], sub)
  | Nat.succ n, sub =>
    match Recv choice sub with
    | none => none
    | some (r, sub2) =>
      match recvN choice n sub2 with
      | none => none
      | some (rs, subF) => some (r :: rs, subF)

/-- A canonical well-formed notification frame for subscription id `S`
carrying a payload that decodes to `v`. -/
def mkNotif (S v : Nat) : Frame :=
  { hasId := false
    idVal := 0
    result := 0
    params := some { subscription := S, result := some (.decodable v) }
    errorField := none
    malformed := false }

/-- A canonical server error frame without an `"id"` key, addressed to
subscription id `S`. -/
def mkErrFrame (S : Nat) (ep : ErrPayload) : Frame :=
  { hasId := false
    idVal := 0
    result := 0
    params := some { subscription := S, result := none }
    errorField := some ep
    malformed := false }

/-- The state of a freshly dialled client: both maps empty. -/
def initWSState : WSState :=
  { heap := [], nextAddr := 0, byRequestID := [], byWSSubID := [], sentUnsubs := [] }

/-! ### Operation traces

Machinery for stating the registry invariant over sequences of the
embedded operations.  `stepWF` applies one operation, restricting to
protocol-conformant traces: fresh request ids (see the design note on
id collisions), and server acknowledgements that name a pending,
not-yet-acknowledged request and carry a fresh nonzero subscription
id. -/

/-- One client or server event. -/
inductive Op where
  | subscribeOp : Nat → String → String → Nat → Op
  | ackOp : Nat → Nat → Op
  | notifOp : Nat → Frame → Op
  | closeOp : Nat → Option WSError → Op
  | closeAllOp : WSError → Op
deriving DecidableEq

/-- Apply one event through the embedded source operations; `none` on a
panic, a blocked channel send, or a trace that breaks the protocol
conventions (duplicate request id, acknowledgement of an unknown or
already-acknowledged request, reused or zero subscription id). -/
def stepWF (st : WSState) : Op → Option WSState
  | .subscribeOp reqId m um rt =>
    if mapLookup st.byRequestID reqId = none then
      some (subscribe st reqId true true m um rt).1
    else none
  | .ackOp r s =>
    match mapLookup st.byRequestID r with
    | none => none
    | some a =>
      match mapLookup st.heap a with
      | none => none
      | some sub =>
        if sub.subID = 0 ∧ s ≠ 0 ∧ mapLookup st.byWSSubID s = none then
          handleNewSubscriptionMessage st r s
        else none
  | .notifOp s f => handleSubscriptionMessage st s f
  | .closeOp r e => closeSubscription st r e
  | .closeAllOp e => closeAllSubscription st (some e)

/-- Run a trace of events. -/
def execWF (st : WSState) : List Op → Option WSState
  | [] => some st
  | op :: rest =>
    match stepWF st op with
    | none => none
    | some st2 => execWF st2 rest

/-- The registry coherence invariant maintained by the operations:
every heap address past `nextAddr` is unallocated; every pending entry
holds a subscription whose request id matches its key and whose error
slot is empty; every active entry holds an acknowledged subscription
(nonzero id matching its key) that is still pending; every live
(error-free) subscription is pending at its own address; every live
acknowledged subscription (nonzero subscription id) is in the active
index under its id. -/
structure GoodState (st : WSState) : Prop where
  addrBound : ∀ a, st.nextAddr ≤ a → mapLookup st.heap a = none
  pendingOk : ∀ r a, mapLookup st.byRequestID r = some a →
    ∃ sub, mapLookup st.heap a = some sub ∧ sub.req.ID = r ∧ sub.errSlot = []
  activeOk : ∀ s a, mapLookup st.byWSSubID s = some a →
    ∃ sub, mapLookup st.heap a = some sub ∧ sub.subID = s ∧ s ≠ 0 ∧
      mapLookup st.byRequestID sub.req.ID = some a
  liveOk : ∀ a sub, mapLookup st.heap a = some sub → sub.errSlot = [] →
    mapLookup st.byRequestID sub.req.ID = some a
  ackedOk : ∀ a sub, mapLookup st.heap a = some sub → sub.errSlot = [] →
    sub.subID ≠ 0 → mapLookup st.byWSSubID sub.subID = some a

/-! ### Concrete inputs used by the claim witnesses -/

/-- A server acknowledgement for a request id the client does not track. -/
def c2ackFrame : Frame :=
  { hasId := true, idVal := 5, result := 7, params := none
    errorField := none, malformed := false }

/-- A subscription whose error slot holds a terminal transport error
and whose delivery pipe is drained. -/
def c5sub : Subscription :=
  { req := { method := "programSubscribe", ID := 1 }
    subID := 7
    stream := []
    errSlot := [some (.transport 0)]
    reflectType := 0
    unsubscriptionMethod := "" }

/-- An acknowledged subscription whose delivery pipe is full. -/
def c1subFull : Subscription :=
  { req := { method := "programSubscribe", ID := 1 }
    subID := 7
    stream := List.replicate 200 (GoVal.val 0)
    errSlot := []
    reflectType := 0
    unsubscriptionMethod := "" }

def c1stFull : WSState :=
  { heap := [(0, c1subFull)], nextAddr := 1, byRequestID := [(1, 0)]
    byWSSubID := [(7, 0)], sentUnsubs := [] }

/-- An acknowledged subscription whose delivery pipe has room. -/
def c1subRoom : Subscription :=
  { req := { method := "programSubscribe", ID := 2 }
    subID := 8
    stream := [GoVal.val 9]
    errSlot := []
    reflectType := 0
    unsubscriptionMethod := "" }

def c1stRoom : WSState :=
  { heap := [(0, c1subRoom)], nextAddr := 1, byRequestID := [(2, 0)]
    byWSSubID := [(8, 0)], sentUnsubs := [] }

/-- A pending, not yet acknowledged subscription. -/
def c7subPending : Subscription :=
  { req := { method := "programSubscribe", ID := 1 }
    subID := 0
    stream := []
    errSlot := []
    reflectType := 0
    unsubscriptionMethod := "" }

def c7st : WSState :=
  { heap := [(0, c7subPending)], nextAddr := 1, byRequestID := [(1, 0)]
    byWSSubID := [], sentUnsubs := [] }

/-- A server error frame that carries the request id of a tracked
pending request (and hence no `result` field: gjson yields 0). -/
def c7errFrameWithId : Frame :=
  { hasId := true, idVal := 1, result := 0, params := none
    errorField := some (.structured (-32000) "subscription failed")
    malformed := false }

/-- Two live acknowledged subscriptions sharing one connection. -/
def c4subA : Subscription :=
  { req := { method := "programSubscribe", ID := 1 }
    subID := 7
    stream := [GoVal.val 11]
    errSlot := []
    reflectType := 0
    unsubscriptionMethod := "" }

def c4subB : Subscription :=
  { req := { method := "programSubscribe", ID := 2 }
    subID := 8
    stream := []
    errSlot := []
    reflectType := 0
    unsubscriptionMethod := "" }

def c4st : WSState :=
  { heap := [(0, c4subA), (1, c4subB)], nextAddr := 2
    byRequestID := [(1, 0), (2, 1)], byWSSubID := [(7, 0), (8, 1)]
    sentUnsubs := [] }

/-- A trace that subscribes and receives the acknowledgement. -/
def c3ops : List Op :=
  [.subscribeOp 1 "programSubscribe" "programUnsubscribe" 0, .ackOp 1 7]

/-- The state reached by `c3ops` from a fresh client: the acknowledged
subscription sits in both indices. -/
def c3stFinal : WSState :=
  { heap := [(0, { req := { method := "programSubscribe", ID := 1 }
                   subID := 7
                   stream := []
                   errSlot := []
                   reflectType := 0
                   unsubscriptionMethod := "" })]
    nextAddr := 1
    byRequestID := [(1, 0)]
    byWSSubID := [(7, 0)]
    sentUnsubs := [] }

/-! ### Association-list lemmas -/

theorem mapLookup_mapErase_self {α : Type} (m : List (Nat × α)) (k : Nat) :
    mapLookup (mapErase m k) k = none := by
  induction m with
  | nil => rfl
  | cons p rest ih =>
    obtain ⟨k1, v⟩ := p
    by_cases h : k1 = k
    · simpa [mapErase, h] using ih
    · have h2 : ¬ k = k1 := fun hc => h hc.symm
      simp [mapErase, h, mapLookup, h2, ih]

theorem mapLookup_mapErase_ne {α : Type} (m : List (Nat × α)) (k k2 : Nat)
    (h : k2 ≠ k) : mapLookup (mapErase m k) k2 = mapLookup m k2 := by
  induction m with
  | nil => rfl
  | cons p rest ih =>
    obtain ⟨k1, v⟩ := p
    by_cases h1 : k1 = k
    · subst h1
      simp [mapErase, mapLookup, h, ih]
    · by_cases h2 : k2 = k1 <;> simp [mapErase, mapLookup, h1, h2, ih]

theorem mapLookup_mapInsert_self {α : Type} (m : List (Nat × α)) (k : Nat) (v : α) :
    mapLookup (mapInsert m k v) k = some v := by
  simp [mapInsert, mapLookup]

theorem mapLookup_mapInsert_ne {α : Type} (m : List (Nat × α)) (k k2 : Nat) (v : α)
    (h : k2 ≠ k) : mapLookup (mapInsert m k v) k2 = mapLookup m k2 := by
  simp [mapInsert, mapLookup, h, mapLookup_mapErase_ne m k k2 h]

theorem mapErase_mapErase_self {α : Type} (m : List (Nat × α)) (k : Nat) :
    mapErase (mapErase m k) k = mapErase m k := by
  induction m with
  | nil => rfl
  | cons p rest ih =>
    obtain ⟨k1, v⟩ := p
    by_cases h : k1 = k <;> simp [mapErase, h, ih]

theorem mapInsert_mapInsert_self {α : Type} (m : List (Nat × α)) (k : Nat) (v w : α) :
    mapInsert (mapInsert m k v) k w = mapInsert m k w := by
  simp [mapInsert, mapErase, mapErase_mapErase_self]

/-! ### Helper lemmas about the embedded operations -/

/-- With a queued terminal error and `choice` resolving the select to
the error channel, `Recv` returns the error and dequeues it. -/
theorem Recv_err_first (sub : Subscription) (e : Option WSError)
    (erest : List (Option WSError)) (h : sub.errSlot = e :: erest) :
    Recv false sub = some ((GoVal.nil, e), { sub with errSlot := erest }) := by
  obtain ⟨req, subID, stream, errSlot, rt, um⟩ := sub
  simp only at h
  subst h
  cases stream <;> rfl

/-- Computation of `closeSubscription` on a registered live subscription. -/
theorem closeSubscription_found (st : WSState) (a : Nat) (sub : Subscription)
    (e : Option WSError)
    (hreq : mapLookup st.byRequestID sub.req.ID = some a)
    (hh : mapLookup st.heap a = some sub)
    (hlive : sub.errSlot = []) :
    closeSubscription st sub.req.ID e =
      some { st with
        heap := mapInsert st.heap a { sub with errSlot := [e] }
        sentUnsubs := st.sentUnsubs ++ [(sub.subID, sub.unsubscriptionMethod)]
        byRequestID := mapErase st.byRequestID sub.req.ID
        byWSSubID := mapErase st.byWSSubID sub.subID } := by
  simp [closeSubscription, hreq, hh, chanSend1, hlive, rpcUnsubscribe]

/-! ### Claim C2 -/

/-- C2: an acknowledgement frame whose request id has no entry in the
pending index is claimed to be a harmless log-only no-op.  In the
source, `handleNewSubscriptionMessage` reads
`c.subscriptionByRequestID[requestID]` without a comma-ok check; a map
miss yields the zero value, a nil `*Subscription`, and the next line
`callBack.subID = subID` writes through it — a nil-pointer dereference
that panics the (unrecovered) reader goroutine and crashes the client.
So handling such a frame produces no successor state at all (`none`):
there is no state in which the registry could be "unchanged".  The
contrast conjunct shows a frame whose id is tracked is handled
normally, so the abort is specific to the unknown id. -/
theorem c2_unknown_ack_panics (st : WSState) (f : Frame)
    (hid : f.hasId = true)
    (hmiss : mapLookup st.byRequestID f.idVal = none) :
    handleMessage st f = none ∧
    (∀ st2, handleMessage st f ≠ some st2) ∧
    (∀ (st3 : WSState) (f3 : Frame) (a : Nat) (sub : Subscription),
      f3.hasId = true →
      mapLookup st3.byRequestID f3.idVal = some a →
      mapLookup st3.heap a = some sub →
      handleMessage st3 f3 =
        some { st3 with
          heap := mapInsert st3.heap a { sub with subID := f3.result }
          byWSSubID := mapInsert st3.byWSSubID f3.result a }) := by
  have hpanic : handleMessage st f = none := by
    simp [handleMessage, hid, handleNewSubscriptionMessage, hmiss]
  refine ⟨hpanic, ?_, ?_⟩
  · intro st2 hc
    rw [hpanic] at hc
    cases hc
  · intro st3 f3 a sub hid3 hre3 hh3
    simp [handleMessage, hid3, handleNewSubscriptionMessage, hre3, hh3]

theorem c2_unknown_ack_panics_witness :
    c2ackFrame.hasId = true ∧
    mapLookup initWSState.byRequestID c2ackFrame.idVal = none ∧
    (handleMessage initWSState c2ackFrame = none ∧
     (∀ st2, handleMessage initWSState c2ackFrame ≠ some st2) ∧
     (∀ (st3 : WSState) (f3 : Frame) (a : Nat) (sub : Subscription),
       f3.hasId = true →
       mapLookup st3.byRequestID f3.idVal = some a →
       mapLookup st3.heap a = some sub →
       handleMessage st3 f3 =
         some { st3 with
           heap := mapInsert st3.heap a { sub with subID := f3.result }
           byWSSubID := mapInsert st3.byWSSubID f3.result a })) :=
  ⟨rfl, rfl, c2_unknown_ack_panics initWSState c2ackFrame rfl rfl⟩

/-! ### Claim C5 -/

/-- C5 counterexample: the first `Recv` returns the terminal error and
consumes it from the capacity-one channel; the claim says a second
`Recv` returns the same error again, but the second `Recv` finds both
channels empty and blocks forever (`none`). -/
theorem c5_counterexample_second_recv_blocks :
    Recv true c5sub =
      some ((GoVal.nil, some (.transport 0)), { c5sub with errSlot := [] }) ∧
    Recv true { c5sub with errSlot := [] } = none := by
  constructor <;> rfl

/-- C5 amended: once `Recv` has returned the terminal error, the error
slot is empty; a further `Recv` on the drained subscription blocks
forever instead of returning that error again (the slot is consumed,
not re-armed). -/
theorem c5_error_slot_consumed (sub : Subscription) (e : Option WSError)
    (c c2 : Bool) (hslot : sub.errSlot = [e]) (hstream : sub.stream = []) :
    Recv c sub = some ((GoVal.nil, e), { sub with errSlot := [] }) ∧
    Recv c2 { sub with errSlot := [] } = none := by
  obtain ⟨req, subID, stream, errSlot, rt, um⟩ := sub
  simp only at hslot hstream
  subst hslot
  subst hstream
  constructor <;> rfl

theorem c5_error_slot_consumed_witness :
    c5sub.errSlot = [some (.transport 0)] ∧ c5sub.stream = [] ∧
    (Recv false c5sub =
       some ((GoVal.nil, some (.transport 0)), { c5sub with errSlot := [] }) ∧
     Recv false { c5sub with errSlot := [] } = none) :=
  ⟨rfl, rfl, c5_error_slot_consumed c5sub (some (.transport 0)) false false rfl rfl⟩

/-! ### Claim C6 -/

/-- C6: a serialization failure returns synchronously with the registry
untouched, as claimed; but on a transport write failure the call
returns the error with the pending-index entry still registered — the
source registers before writing and never rolls the entry back. -/
theorem c6_subscribe_write_failure_leaves_entry (st : WSState) (reqId : Nat)
    (m um : String) (rt : Nat) :
    subscribe st reqId false true m um rt =
      (st, .error "subscribe: unable to encode subsciption request") ∧
    (subscribe st reqId true false m um rt).2 = .error "unable to write request" ∧
    mapLookup (subscribe st reqId true false m um rt).1.byRequestID reqId =
      some st.nextAddr := by
  refine ⟨rfl, rfl, ?_⟩
  simp [subscribe, mapLookup_mapInsert_self]

/-! ### Claim C10 -/

/-- C10: a caller-initiated `Unsubscribe` on a live subscription pushes
the Go nil error into the error slot, so a following `Recv` returns the
pair (nil result, nil error) — exactly the pair a `Recv` of a queued
nil stream value would return, making the two indistinguishable from
the return values. -/
theorem c10_unsubscribe_recv_nil_nil (st : WSState) (a : Nat) (sub : Subscription)
    (hh : mapLookup st.heap a = some sub)
    (hreq : mapLookup st.byRequestID sub.req.ID = some a)
    (hlive : sub.errSlot = []) :
    ∃ st2, Unsubscribe st a = some st2 ∧
      mapLookup st2.heap a = some { sub with errSlot := [none] } ∧
      Recv false { sub with errSlot := [none] } =
        some ((GoVal.nil, none), { sub with errSlot := [] }) ∧
      Recv true { sub with stream := [GoVal.nil], errSlot := [] } =
        some ((GoVal.nil, none), { sub with stream := [], errSlot := [] }) := by
  refine ⟨{ st with
      heap := mapInsert st.heap a { sub with errSlot := [none] }
      sentUnsubs := st.sentUnsubs ++ [(sub.subID, sub.unsubscriptionMethod)]
      byRequestID := mapErase st.byRequestID sub.req.ID
      byWSSubID := mapErase st.byWSSubID sub.subID }, ?_, ?_, ?_, ?_⟩
  · simp only [Unsubscribe, hh]
    exact closeSubscription_found st a sub none hreq hh hlive
  · exact mapLookup_mapInsert_self st.heap a { sub with errSlot := [none] }
  · exact Recv_err_first { sub with errSlot := [none] } none [] rfl
  · rfl

theorem c10_unsubscribe_recv_nil_nil_witness :
    mapLookup c7st.heap 0 = some c7subPending ∧
    mapLookup c7st.byRequestID c7subPending.req.ID = some 0 ∧
    c7subPending.errSlot = [] ∧
    (∃ st2, Unsubscribe c7st 0 = some st2 ∧
      mapLookup st2.heap 0 = some { c7subPending with errSlot := [none] } ∧
      Recv false { c7subPending with errSlot := [none] } =
        some ((GoVal.nil, none), { c7subPending with errSlot := [] }) ∧
      Recv true { c7subPending with stream := [GoVal.nil], errSlot := [] } =
        some ((GoVal.nil, none), { c7subPending with stream := [], errSlot := [] })) :=
  ⟨rfl, rfl, rfl, c10_unsubscribe_recv_nil_nil c7st 0 c7subPending rfl rfl rfl⟩

/-! ### Claim C8 -/

/-- C8: `Unsubscribe` is idempotent.  The first call pushes the nil
error, attempts exactly one unsubscribe request and removes the entry
from both indices; the second call finds the request id already gone in
`closeSubscription` and returns with the state unchanged — no second
error push, no duplicate unsubscribe frame, no panic. -/
theorem c8_unsubscribe_idempotent (st : WSState) (a : Nat) (sub : Subscription)
    (hh : mapLookup st.heap a = some sub)
    (hreq : mapLookup st.byRequestID sub.req.ID = some a)
    (hlive : sub.errSlot = []) :
    ∃ st2, Unsubscribe st a = some st2 ∧
      st2.sentUnsubs = st.sentUnsubs ++ [(sub.subID, sub.unsubscriptionMethod)] ∧
      Unsubscribe st2 a = some st2 := by
  refine ⟨{ st with
      heap := mapInsert st.heap a { sub with errSlot := [none] }
      sentUnsubs := st.sentUnsubs ++ [(sub.subID, sub.unsubscriptionMethod)]
      byRequestID := mapErase st.byRequestID sub.req.ID
      byWSSubID := mapErase st.byWSSubID sub.subID }, ?_, rfl, ?_⟩
  · simp only [Unsubscribe, hh]
    exact closeSubscription_found st a sub none hreq hh hlive
  · simp only [Unsubscribe, mapLookup_mapInsert_self, closeSubscription,
      mapLookup_mapErase_self]

theorem c8_unsubscribe_idempotent_witness :
    mapLookup c4st.heap 0 = some c4subA ∧
    mapLookup c4st.byRequestID c4subA.req.ID = some 0 ∧
    c4subA.errSlot = [] ∧
    (∃ st2, Unsubscribe c4st 0 = some st2 ∧
      st2.sentUnsubs = c4st.sentUnsubs ++ [(c4subA.subID, c4subA.unsubscriptionMethod)] ∧
      Unsubscribe st2 0 = some st2) :=
  ⟨rfl, rfl, rfl, c8_unsubscribe_idempotent c4st 0 c4subA rfl rfl rfl⟩

/-! ### Claim C1 -/

/-- C1: routing a decodable notification to an active live subscription
never suspends the reader loop (the result is always `some`): with the
delivery pipe at capacity the subscription is closed with the
capacity-exceeded error (error slot set, both index entries removed,
one unsubscribe request attempted) instead of pushing; below capacity
the decoded result is appended to the pipe. -/
theorem c1_backpressure_close_or_push (st : WSState) (S a : Nat)
    (sub : Subscription) (f : Frame) (v : GoVal)
    (hS : mapLookup st.byWSSubID S = some a)
    (hh : mapLookup st.heap a = some sub)
    (hdec : decodeClientResponse f = some (.ok v))
    (hreq : mapLookup st.byRequestID sub.req.ID = some a)
    (hlive : sub.errSlot = []) :
    (streamCapacity ≤ sub.stream.length →
      handleSubscriptionMessage st S f =
        some { st with
          heap := mapInsert st.heap a
            { sub with errSlot := [some (.capacity sub.stream.length)] }
          sentUnsubs := st.sentUnsubs ++ [(sub.subID, sub.unsubscriptionMethod)]
          byRequestID := mapErase st.byRequestID sub.req.ID
          byWSSubID := mapErase st.byWSSubID sub.subID }) ∧
    (sub.stream.length < streamCapacity →
      handleSubscriptionMessage st S f =
        some { st with
          heap := mapInsert st.heap a { sub with stream := sub.stream ++ [v] } }) := by
  constructor
  · intro hfull
    simp only [handleSubscriptionMessage, hS, hh, hdec, if_pos hfull]
    exact closeSubscription_found st a sub (some (.capacity sub.stream.length)) hreq hh hlive
  · intro hroom
    simp only [handleSubscriptionMessage, hS, hh, hdec, if_neg (Nat.not_le.mpr hroom)]

theorem c1_backpressure_close_or_push_witness :
    (mapLookup c1stFull.byWSSubID 7 = some 0 ∧
     mapLookup c1stFull.heap 0 = some c1subFull ∧
     decodeClientResponse (mkNotif 7 3) = some (.ok (GoVal.val 3)) ∧
     mapLookup c1stFull.byRequestID c1subFull.req.ID = some 0 ∧
     c1subFull.errSlot = [] ∧
     streamCapacity ≤ c1subFull.stream.length ∧
     handleSubscriptionMessage c1stFull 7 (mkNotif 7 3) =
       some { c1stFull with
         heap := mapInsert c1stFull.heap 0
           { c1subFull with errSlot := [some (.capacity c1subFull.stream.length)] }
         sentUnsubs := c1stFull.sentUnsubs ++
           [(c1subFull.subID, c1subFull.unsubscriptionMethod)]
         byRequestID := mapErase c1stFull.byRequestID c1subFull.req.ID
         byWSSubID := mapErase c1stFull.byWSSubID c1subFull.subID }) ∧
    (mapLookup c1stRoom.byWSSubID 8 = some 0 ∧
     mapLookup c1stRoom.heap 0 = some c1subRoom ∧
     c1subRoom.stream.length < streamCapacity ∧
     handleSubscriptionMessage c1stRoom 8 (mkNotif 8 4) =
       some { c1stRoom with
         heap := mapInsert c1stRoom.heap 0
           { c1subRoom with stream := c1subRoom.stream ++ [GoVal.val 4] } }) :=
  ⟨⟨rfl, rfl, rfl, rfl, rfl, by simp [c1subFull, streamCapacity],
    (c1_backpressure_close_or_push c1stFull 7 0 c1subFull (mkNotif 7 3)
      (GoVal.val 3) rfl rfl rfl rfl rfl).1 (by simp [c1subFull, streamCapacity])⟩,
   ⟨rfl, rfl, by simp [c1subRoom, streamCapacity],
    (c1_backpressure_close_or_push c1stRoom 8 0 c1subRoom (mkNotif 8 4)
      (GoVal.val 4) rfl rfl rfl rfl rfl).2 (by simp [c1subRoom, streamCapacity])⟩⟩

/-! ### Claim C7 -/

/-- C7 counterexample: a server error frame carrying the request id of
a tracked (pending) subscription is routed as an acknowledgement, not
as an error: the subscription's error slot stays empty (a `Recv` would
block forever), and the subscription is even promoted into the active
index under subscription id 0 (gjson reads 0 from the absent `result`
field).  The claimed behaviour — surfacing the error as the
subscription's terminal error via `Recv` — does not happen. -/
theorem c7_counterexample_id_error_frame_not_surfaced :
    handleMessage c7st c7errFrameWithId =
      some { heap := [(0, c7subPending)], nextAddr := 1, byRequestID := [(1, 0)]
             byWSSubID := [(0, 0)], sentUnsubs := [] } ∧
    c7subPending.errSlot = [] ∧
    Recv true c7subPending = none := by
  refine ⟨by decide, rfl, rfl⟩

/-- C7 amended: only a server error frame without an `"id"` key whose
`params.subscription` resolves to an active subscription surfaces the
error as that subscription's terminal error (wrapped as a client
response decode failure) through `Recv`; such a frame that resolves to
no active subscription is logged and changes nothing; an error frame
that carries an `"id"` key is processed as an acknowledgement instead
of an error. -/
theorem c7_server_error_routing (st : WSState) (S a : Nat) (sub : Subscription)
    (ep : ErrPayload)
    (hS : mapLookup st.byWSSubID S = some a)
    (hh : mapLookup st.heap a = some sub)
    (hreq : mapLookup st.byRequestID sub.req.ID = some a)
    (hlive : sub.errSlot = []) :
    (handleMessage st (mkErrFrame S ep) =
      some { st with
        heap := mapInsert st.heap a
          { sub with errSlot := [some (.unableToDecode (errPayloadToError ep))] }
        sentUnsubs := st.sentUnsubs ++ [(sub.subID, sub.unsubscriptionMethod)]
        byRequestID := mapErase st.byRequestID sub.req.ID
        byWSSubID := mapErase st.byWSSubID sub.subID } ∧
     Recv false { sub with errSlot := [some (.unableToDecode (errPayloadToError ep))] } =
       some ((GoVal.nil, some (.unableToDecode (errPayloadToError ep))),
         { sub with errSlot := [] })) ∧
    (∀ st2 f2, f2.hasId = false →
      mapLookup st2.byWSSubID f2.paramsSubscription = none →
      handleMessage st2 f2 = some st2) ∧
    (∀ st3 f3, f3.hasId = true →
      handleMessage st3 f3 = handleNewSubscriptionMessage st3 f3.idVal f3.result) := by
  refine ⟨⟨?_, ?_⟩, ?_, ?_⟩
  · have h1 : handleMessage st (mkErrFrame S ep) =
        handleSubscriptionMessage st S (mkErrFrame S ep) := rfl
    have h2 : decodeClientResponse (mkErrFrame S ep) =
        some (.error (errPayloadToError ep)) := rfl
    rw [h1]
    simp only [handleSubscriptionMessage, hS, hh, h2]
    exact closeSubscription_found st a sub
      (some (.unableToDecode (errPayloadToError ep))) hreq hh hlive
  · exact Recv_err_first _ _ [] rfl
  · intro st2 f2 hid hmiss
    simp [handleMessage, hid, handleSubscriptionMessage, hmiss]
  · intro st3 f3 hid
    simp [handleMessage, hid]

theorem c7_server_error_routing_witness :
    mapLookup c1stRoom.byWSSubID 8 = some 0 ∧
    mapLookup c1stRoom.heap 0 = some c1subRoom ∧
    mapLookup c1stRoom.byRequestID c1subRoom.req.ID = some 0 ∧
    c1subRoom.errSlot = [] ∧
    ((handleMessage c1stRoom (mkErrFrame 8 (.structured (-32000) "boom")) =
      some { c1stRoom with
        heap := mapInsert c1stRoom.heap 0
          { c1subRoom with errSlot :=
              [some (.unableToDecode (errPayloadToError (.structured (-32000) "boom")))] }
        sentUnsubs := c1stRoom.sentUnsubs ++
          [(c1subRoom.subID, c1subRoom.unsubscriptionMethod)]
        byRequestID := mapErase c1stRoom.byRequestID c1subRoom.req.ID
        byWSSubID := mapErase c1stRoom.byWSSubID c1subRoom.subID } ∧
     Recv false { c1subRoom with errSlot :=
         [some (.unableToDecode (errPayloadToError (.structured (-32000) "boom")))] } =
       some ((GoVal.nil,
         some (.unableToDecode (errPayloadToError (.structured (-32000) "boom")))),
         { c1subRoom with errSlot := [] })) ∧
    (∀ st2 f2, f2.hasId = false →
      mapLookup st2.byWSSubID f2.paramsSubscription = none →
      handleMessage st2 f2 = some st2) ∧
    (∀ st3 f3, f3.hasId = true →
      handleMessage st3 f3 = handleNewSubscriptionMessage st3 f3.idVal f3.result)) :=
  ⟨rfl, rfl, rfl, rfl,
   c7_server_error_routing c1stRoom 8 0 c1subRoom (.structured (-32000) "boom")
     rfl rfl rfl rfl⟩

/-! ### Claim C4 -/

/-- Computation of the `closeAllSubscription` loop: when every index
entry points at a live subscription and no two entries share an
address, every push succeeds, the targeted subscriptions end with the
error queued, and all other heap cells are untouched. -/
theorem pushErrAll_spec (e : Option WSError) :
    ∀ (entries : List (Nat × Nat)) (heap : List (Nat × Subscription)),
    (∀ r a, (r, a) ∈ entries → ∃ sub, mapLookup heap a = some sub ∧ sub.errSlot = []) →
    (entries.map Prod.snd).Nodup →
    ∃ heap2, pushErrAll heap entries e = some heap2 ∧
      (∀ r a, (r, a) ∈ entries → ∃ sub, mapLookup heap a = some sub ∧
        mapLookup heap2 a = some { sub with errSlot := [e] }) ∧
      (∀ a, a ∉ entries.map Prod.snd → mapLookup heap2 a = mapLookup heap a) := by
  intro entries
  induction entries with
  | nil =>
    intro heap _ _
    exact ⟨heap, rfl, by simp, fun a _ => rfl⟩
  | cons p rest ih =>
    obtain ⟨r0, a0⟩ := p
    intro heap hin hnodup
    obtain ⟨sub0, hsub0, hslot0⟩ := hin r0 a0 (List.mem_cons_self _ _)
    have hnodup2 : a0 ∉ rest.map Prod.snd ∧ (rest.map Prod.snd).Nodup := by
      simpa [List.nodup_cons] using hnodup
    have hrestin : ∀ r a, (r, a) ∈ rest →
        ∃ sub, mapLookup (mapInsert heap a0 { sub0 with errSlot := [e] }) a = some sub ∧
          sub.errSlot = [] := by
      intro r a hmem
      obtain ⟨sub, hs, he⟩ := hin r a (List.mem_cons_of_mem _ hmem)
      have hane : a ≠ a0 := by
        intro heq
        exact hnodup2.1 (heq ▸ List.mem_map_of_mem Prod.snd hmem)
      exact ⟨sub, by rw [mapLookup_mapInsert_ne _ _ _ _ hane]; exact hs, he⟩
    obtain ⟨heap2, hpush, hprop2, hprop3⟩ :=
      ih (mapInsert heap a0 { sub0 with errSlot := [e] }) hrestin hnodup2.2
    refine ⟨heap2, ?_, ?_, ?_⟩
    · have hcs : chanSend1 sub0.errSlot e = some [e] := by simp [chanSend1, hslot0]
      simp only [pushErrAll, hsub0, hcs]
      exact hpush
    · intro r a hmem
      rcases List.mem_cons.mp hmem with heq | hmem2
      · injection heq with heqr heqa
        subst heqr
        subst heqa
        refine ⟨sub0, hsub0, ?_⟩
        rw [hprop3 a hnodup2.1, mapLookup_mapInsert_self]
      · obtain ⟨sub, hs1, hs2⟩ := hprop2 r a hmem2
        have hane : a ≠ a0 := by
          intro heq
          exact hnodup2.1 (heq ▸ List.mem_map_of_mem Prod.snd hmem2)
        rw [mapLookup_mapInsert_ne _ _ _ _ hane] at hs1
        exact ⟨sub, hs1, hs2⟩
    · intro a hnot
      have hane : a ≠ a0 := by
        intro heq
        exact hnot (by simp [heq])
      have hnot2 : a ∉ rest.map Prod.snd := by
        intro hc
        exact hnot (by simp [hc])
      rw [hprop3 a hnot2, mapLookup_mapInsert_ne _ _ _ _ hane]

/-- C4: a transport read error terminates the reader loop iteration via
`closeAllSubscription`: every live subscription's error slot receives
the same error (and a `Recv` resolving to the error channel returns
it), and both registry indices are empty afterwards. -/
theorem c4_read_error_fanout (st : WSState) (e : WSError)
    (hlive : ∀ r a, (r, a) ∈ st.byRequestID →
      ∃ sub, mapLookup st.heap a = some sub ∧ sub.errSlot = [])
    (hnodup : (st.byRequestID.map Prod.snd).Nodup) :
    ∃ st2, receiveMessagesStep st (.error e) = some st2 ∧
      st2.byRequestID = [] ∧ st2.byWSSubID = [] ∧
      ∀ r a, (r, a) ∈ st.byRequestID →
        ∃ sub, mapLookup st.heap a = some sub ∧
          mapLookup st2.heap a = some { sub with errSlot := [some e] } ∧
          Recv false { sub with errSlot := [some e] } =
            some ((GoVal.nil, some e), { sub with errSlot := [] }) := by
  obtain ⟨heap2, hpush, hprop2, _⟩ :=
    pushErrAll_spec (some e) st.byRequestID st.heap hlive hnodup
  refine ⟨{ st with heap := heap2, byRequestID := [], byWSSubID := [] }, ?_, rfl, rfl, ?_⟩
  · simp only [receiveMessagesStep, closeAllSubscription, hpush]
  · intro r a hmem
    obtain ⟨sub, h1, h2⟩ := hprop2 r a hmem
    exact ⟨sub, h1, h2, Recv_err_first _ _ [] rfl⟩

theorem c4_read_error_fanout_witness :
    (∀ r a, (r, a) ∈ c4st.byRequestID →
      ∃ sub, mapLookup c4st.heap a = some sub ∧ sub.errSlot = []) ∧
    (c4st.byRequestID.map Prod.snd).Nodup ∧
    (∃ st2, receiveMessagesStep c4st (.error (.transport 3)) = some st2 ∧
      st2.byRequestID = [] ∧ st2.byWSSubID = [] ∧
      ∀ r a, (r, a) ∈ c4st.byRequestID →
        ∃ sub, mapLookup c4st.heap a = some sub ∧
          mapLookup st2.heap a = some { sub with errSlot := [some (.transport 3)] } ∧
          Recv false { sub with errSlot := [some (.transport 3)] } =
            some ((GoVal.nil, some (.transport 3)), { sub with errSlot := [] })) := by
  have hlive : ∀ r a, (r, a) ∈ c4st.byRequestID →
      ∃ sub, mapLookup c4st.heap a = some sub ∧ sub.errSlot = [] := by
    intro r a h
    simp only [c4st, List.mem_cons, List.not_mem_nil, or_false, Prod.mk.injEq] at h
    rcases h with ⟨rfl, rfl⟩ | ⟨rfl, rfl⟩
    · exact ⟨c4subA, rfl, rfl⟩
    · exact ⟨c4subB, rfl, rfl⟩
  exact ⟨hlive, by decide, c4_read_error_fanout c4st (.transport 3) hlive (by decide)⟩

/-! ### Claim C9 -/

/-- Draining a live subscription: `Recv` dequeues the stream front, so
successive calls return the queued results in queue order, each paired
with the nil error. -/
theorem recvN_drain (c : Bool) :
    ∀ (l : List GoVal) (sub : Subscription), sub.stream = l → sub.errSlot = [] →
    recvN c l.length sub =
      some (l.map (fun d => (d, (none : Option WSError))), { sub with stream := [] }) := by
  intro l
  induction l with
  | nil =>
    intro sub hs he
    obtain ⟨req, subID, stream, errSlot, rt, um⟩ := sub
    simp only at hs he
    subst hs
    subst he
    rfl
  | cons d rest ih =>
    intro sub hs he
    obtain ⟨req, subID, stream, errSlot, rt, um⟩ := sub
    simp only at hs he
    subst hs
    subst he
    have h1 : Recv c ⟨req, subID, d :: rest, [], rt, um⟩ =
        some ((d, none), ⟨req, subID, rest, [], rt, um⟩) := rfl
    have h2 := ih ⟨req, subID, rest, [], rt, um⟩ rfl rfl
    show recvN c (rest.length + 1) _ = _
    simp only [recvN, h1, h2]
    rfl

/-- One decodable notification for active id `S` with room in the pipe
is appended to exactly that subscription's stream. -/
theorem handleMessage_notif_push (st : WSState) (S a : Nat) (sub : Subscription)
    (v : Nat)
    (hS : mapLookup st.byWSSubID S = some a)
    (hh : mapLookup st.heap a = some sub)
    (hroom : sub.stream.length < streamCapacity) :
    handleMessage st (mkNotif S v) =
      some { st with
        heap := mapInsert st.heap a { sub with stream := sub.stream ++ [GoVal.val v] } } := by
  have h1 : handleMessage st (mkNotif S v) =
      handleSubscriptionMessage st S (mkNotif S v) := rfl
  have h2 : decodeClientResponse (mkNotif S v) = some (.ok (GoVal.val v)) := rfl
  rw [h1]
  simp only [handleSubscriptionMessage, hS, hh, h2, if_neg (Nat.not_le.mpr hroom)]

/-- Routing a batch of notifications for id `S`: every payload lands in
`S`'s stream in processing order; the indices, the counters, the sent
frames and every other heap cell are untouched. -/
theorem processMessages_notifs (S : Nat) (vs : List Nat) :
    ∀ (st : WSState) (a : Nat) (sub : Subscription),
    mapLookup st.byWSSubID S = some a →
    mapLookup st.heap a = some sub →
    sub.stream.length + vs.length ≤ streamCapacity →
    ∃ st2, processMessages st (vs.map (mkNotif S)) = some st2 ∧
      st2.nextAddr = st.nextAddr ∧ st2.byRequestID = st.byRequestID ∧
      st2.byWSSubID = st.byWSSubID ∧ st2.sentUnsubs = st.sentUnsubs ∧
      mapLookup st2.heap a = some { sub with stream := sub.stream ++ vs.map GoVal.val } ∧
      (∀ a2, a2 ≠ a → mapLookup st2.heap a2 = mapLookup st.heap a2) := by
  induction vs with
  | nil =>
    intro st a sub hS hh _
    refine ⟨st, rfl, rfl, rfl, rfl, rfl, ?_, fun _ _ => rfl⟩
    simpa using hh
  | cons v rest ih =>
    intro st a sub hS hh hcap
    have hroom : sub.stream.length < streamCapacity := by
      have := hcap
      simp only [List.length_cons] at this
      omega
    have hstep := handleMessage_notif_push st S a sub v hS hh hroom
    obtain ⟨st2, hrun, h1, h2, h3, h4, h5, h6⟩ :=
      ih { st with heap := mapInsert st.heap a { sub with stream := sub.stream ++ [GoVal.val v] } }
        a { sub with stream := sub.stream ++ [GoVal.val v] }
        hS (mapLookup_mapInsert_self _ _ _)
        (by simp only [List.length_append, List.length_cons, List.length_nil] at hcap ⊢; omega)
    refine ⟨st2, ?_, h1, h2, h3, h4, ?_, ?_⟩
    · simp only [List.map_cons, processMessages, hstep]
      exact hrun
    · rw [h5]
      simp [List.append_assoc]
    · intro a2 hne
      rw [h6 a2 hne, mapLookup_mapInsert_ne _ _ _ _ hne]

/-- C9: notifications bearing subscription id `S` are delivered only to
the subscription registered under `S`, appended in processing order,
and successive `Recv` calls return the stream contents in exactly that
order (FIFO per subscription), each with the nil error. -/
theorem c9_fifo_per_subscription (st : WSState) (S a : Nat) (sub : Subscription)
    (vs : List Nat) (c : Bool)
    (hS : mapLookup st.byWSSubID S = some a)
    (hh : mapLookup st.heap a = some sub)
    (hlive : sub.errSlot = [])
    (hcap : sub.stream.length + vs.length ≤ streamCapacity) :
    ∃ st2, processMessages st (vs.map (mkNotif S)) = some st2 ∧
      st2.nextAddr = st.nextAddr ∧ st2.byRequestID = st.byRequestID ∧
      st2.byWSSubID = st.byWSSubID ∧ st2.sentUnsubs = st.sentUnsubs ∧
      mapLookup st2.heap a = some { sub with stream := sub.stream ++ vs.map GoVal.val } ∧
      (∀ a2, a2 ≠ a → mapLookup st2.heap a2 = mapLookup st.heap a2) ∧
      recvN c (sub.stream ++ vs.map GoVal.val).length
          { sub with stream := sub.stream ++ vs.map GoVal.val } =
        some ((sub.stream ++ vs.map GoVal.val).map (fun d => (d, (none : Option WSError))),
          { sub with stream := [] }) := by
  obtain ⟨st2, h0, h1, h2, h3, h4, h5, h6⟩ :=
    processMessages_notifs S vs st a sub hS hh hcap
  refine ⟨st2, h0, h1, h2, h3, h4, h5, h6, ?_⟩
  exact recvN_drain c (sub.stream ++ vs.map GoVal.val)
    { sub with stream := sub.stream ++ vs.map GoVal.val } rfl hlive

theorem c9_fifo_per_subscription_witness :
    mapLookup c1stRoom.byWSSubID 8 = some 0 ∧
    mapLookup c1stRoom.heap 0 = some c1subRoom ∧
    c1subRoom.errSlot = [] ∧
    c1subRoom.stream.length + [1, 2].length ≤ streamCapacity ∧
    (∃ st2, processMessages c1stRoom ([1, 2].map (mkNotif 8)) = some st2 ∧
      st2.nextAddr = c1stRoom.nextAddr ∧ st2.byRequestID = c1stRoom.byRequestID ∧
      st2.byWSSubID = c1stRoom.byWSSubID ∧ st2.sentUnsubs = c1stRoom.sentUnsubs ∧
      mapLookup st2.heap 0 =
        some { c1subRoom with stream := c1subRoom.stream ++ [1, 2].map GoVal.val } ∧
      (∀ a2, a2 ≠ 0 → mapLookup st2.heap a2 = mapLookup c1stRoom.heap a2) ∧
      recvN true (c1subRoom.stream ++ [1, 2].map GoVal.val).length
          { c1subRoom with stream := c1subRoom.stream ++ [1, 2].map GoVal.val } =
        some ((c1subRoom.stream ++ [1, 2].map GoVal.val).map
            (fun d => (d, (none : Option WSError))),
          { c1subRoom with stream := [] })) :=
  ⟨rfl, rfl, rfl, by decide,
   c9_fifo_per_subscription c1stRoom 8 0 c1subRoom [1, 2] true rfl rfl rfl (by decide)⟩

/-! ### Claim C3: preservation of the registry invariant -/

theorem mem_of_mapLookup {α : Type} (m : List (Nat × α)) (k : Nat) (v : α)
    (h : mapLookup m k = some v) : (k, v) ∈ m := by
  induction m with
  | nil => cases h
  | cons p rest ih =>
    obtain ⟨k1, v1⟩ := p
    by_cases hk : k = k1
    · subst hk
      rw [mapLookup, if_pos rfl] at h
      injection h with h
      subst h
      exact List.mem_cons_self _ _
    · rw [mapLookup, if_neg hk] at h
      exact List.mem_cons_of_mem _ (ih h)

theorem goodState_init : GoodState initWSState := by
  constructor
  · intro a _
    rfl
  · intro r a h
    exact absurd h (by simp [initWSState, mapLookup])
  · intro s a h
    exact absurd h (by simp [initWSState, mapLookup])
  · intro a sub h _
    exact absurd h (by simp [initWSState, mapLookup])
  · intro a sub h _ _
    exact absurd h (by simp [initWSState, mapLookup])

theorem closeSubscription_preserves (st : WSState) (r : Nat) (e : Option WSError)
    (st2 : WSState) (hg : GoodState st)
    (h : closeSubscription st r e = some st2) : GoodState st2 := by
  rcases hre : mapLookup st.byRequestID r with _ | a
  · simp only [closeSubscription, hre] at h
    injection h with h
    subst h
    exact hg
  · obtain ⟨sub, hh, hrid, hslot⟩ := hg.pendingOk r a hre
    have hre2 : mapLookup st.byRequestID sub.req.ID = some a := by rw [hrid]; exact hre
    have hcs : chanSend1 sub.errSlot e = some [e] := by simp [chanSend1, hslot]
    simp only [closeSubscription, hre, hh, hcs, rpcUnsubscribe] at h
    injection h with h
    subst h
    constructor
    · intro a2 h2
      have hane : a2 ≠ a := by
        intro heq
        subst heq
        rw [hg.addrBound a2 h2] at hh
        cases hh
      show mapLookup (mapInsert st.heap a _) a2 = none
      rw [mapLookup_mapInsert_ne _ _ _ _ hane]
      exact hg.addrBound a2 h2
    · intro r2 a2 h2
      replace h2 : mapLookup (mapErase st.byRequestID sub.req.ID) r2 = some a2 := h2
      have hr2ne : r2 ≠ sub.req.ID := by
        intro heq
        rw [heq, mapLookup_mapErase_self] at h2
        cases h2
      rw [mapLookup_mapErase_ne _ _ _ hr2ne] at h2
      obtain ⟨sub2, hh2, hrid2, hslot2⟩ := hg.pendingOk r2 a2 h2
      have hane : a2 ≠ a := by
        intro heq
        subst heq
        rw [hh] at hh2
        injection hh2 with hh2
        exact hr2ne (by rw [← hrid2, hh2])
      refine ⟨sub2, ?_, hrid2, hslot2⟩
      show mapLookup (mapInsert st.heap a _) a2 = some sub2
      rw [mapLookup_mapInsert_ne _ _ _ _ hane]
      exact hh2
    · intro s2 a2 h2
      replace h2 : mapLookup (mapErase st.byWSSubID sub.subID) s2 = some a2 := h2
      have hs2ne : s2 ≠ sub.subID := by
        intro heq
        rw [heq, mapLookup_mapErase_self] at h2
        cases h2
      rw [mapLookup_mapErase_ne _ _ _ hs2ne] at h2
      obtain ⟨sub2, hh2, hsid2, hs2nz, hreq2⟩ := hg.activeOk s2 a2 h2
      have hane : a2 ≠ a := by
        intro heq
        subst heq
        rw [hh] at hh2
        injection hh2 with hh2
        exact hs2ne (by rw [← hsid2, hh2])
      have hrne : sub2.req.ID ≠ sub.req.ID := by
        intro heq
        rw [heq, hre2] at hreq2
        injection hreq2 with hreq2
        exact hane hreq2.symm
      refine ⟨sub2, ?_, hsid2, hs2nz, ?_⟩
      · show mapLookup (mapInsert st.heap a _) a2 = some sub2
        rw [mapLookup_mapInsert_ne _ _ _ _ hane]
        exact hh2
      · show mapLookup (mapErase st.byRequestID sub.req.ID) sub2.req.ID = some a2
        rw [mapLookup_mapErase_ne _ _ _ hrne]
        exact hreq2
    · intro a2 sub2 h2 hslot2
      replace h2 : mapLookup (mapInsert st.heap a { sub with errSlot := [e] }) a2 =
        some sub2 := h2
      by_cases hane : a2 = a
      · subst hane
        rw [mapLookup_mapInsert_self] at h2
        injection h2 with h2
        rw [← h2] at hslot2
        simp at hslot2
      · rw [mapLookup_mapInsert_ne _ _ _ _ hane] at h2
        have hl := hg.liveOk a2 sub2 h2 hslot2
        have hrne : sub2.req.ID ≠ sub.req.ID := by
          intro heq
          rw [heq, hre2] at hl
          injection hl with hl
          exact hane hl.symm
        show mapLookup (mapErase st.byRequestID sub.req.ID) sub2.req.ID = some a2
        rw [mapLookup_mapErase_ne _ _ _ hrne]
        exact hl
    · intro a2 sub2 h2 hslot2 hsid2
      replace h2 : mapLookup (mapInsert st.heap a { sub with errSlot := [e] }) a2 =
        some sub2 := h2
      by_cases hane : a2 = a
      · subst hane
        rw [mapLookup_mapInsert_self] at h2
        injection h2 with h2
        rw [← h2] at hslot2
        simp at hslot2
      · rw [mapLookup_mapInsert_ne _ _ _ _ hane] at h2
        have hold := hg.ackedOk a2 sub2 h2 hslot2 hsid2
        have hsne : sub2.subID ≠ sub.subID := by
          intro heq
          by_cases hz : sub.subID = 0
          · rw [hz] at heq
            exact hsid2 heq
          · have hsub := hg.ackedOk a sub hh hslot hz
            rw [heq, hsub] at hold
            injection hold with hold
            exact hane hold.symm
        show mapLookup (mapErase st.byWSSubID sub.subID) sub2.subID = some a2
        rw [mapLookup_mapErase_ne _ _ _ hsne]
        exact hold

theorem subscribe_preserves (st : WSState) (reqId : Nat) (m um : String) (rt : Nat)
    (hg : GoodState st) (hfresh : mapLookup st.byRequestID reqId = none) :
    GoodState (subscribe st reqId true true m um rt).1 := by
  have hheapnew : ∀ a2 sub2, mapLookup st.heap a2 = some sub2 → a2 ≠ st.nextAddr := by
    intro a2 sub2 h2 heq
    rw [heq, hg.addrBound st.nextAddr (Nat.le_refl _)] at h2
    cases h2
  constructor
  · intro a2 h2
    replace h2 : st.nextAddr + 1 ≤ a2 := h2
    have hane : a2 ≠ st.nextAddr := by omega
    show mapLookup (mapInsert st.heap st.nextAddr _) a2 = none
    rw [mapLookup_mapInsert_ne _ _ _ _ hane]
    exact hg.addrBound a2 (by omega)
  · intro r2 a2 h2
    replace h2 : mapLookup (mapInsert st.byRequestID reqId st.nextAddr) r2 = some a2 := h2
    by_cases hr2 : r2 = reqId
    · subst hr2
      rw [mapLookup_mapInsert_self] at h2
      injection h2 with h2
      subst h2
      refine ⟨newSubscription { method := m, ID := r2 } rt, ?_, rfl, rfl⟩
      show mapLookup (mapInsert st.heap st.nextAddr _) st.nextAddr = some _
      rw [mapLookup_mapInsert_self]
    · rw [mapLookup_mapInsert_ne _ _ _ _ hr2] at h2
      obtain ⟨sub2, hh2, hrid2, hslot2⟩ := hg.pendingOk r2 a2 h2
      refine ⟨sub2, ?_, hrid2, hslot2⟩
      show mapLookup (mapInsert st.heap st.nextAddr _) a2 = some sub2
      rw [mapLookup_mapInsert_ne _ _ _ _ (hheapnew a2 sub2 hh2)]
      exact hh2
  · intro s2 a2 h2
    replace h2 : mapLookup st.byWSSubID s2 = some a2 := h2
    obtain ⟨sub2, hh2, hsid2, hs2nz, hreq2⟩ := hg.activeOk s2 a2 h2
    have hrne : sub2.req.ID ≠ reqId := by
      intro heq
      rw [heq, hfresh] at hreq2
      cases hreq2
    refine ⟨sub2, ?_, hsid2, hs2nz, ?_⟩
    · show mapLookup (mapInsert st.heap st.nextAddr _) a2 = some sub2
      rw [mapLookup_mapInsert_ne _ _ _ _ (hheapnew a2 sub2 hh2)]
      exact hh2
    · show mapLookup (mapInsert st.byRequestID reqId st.nextAddr) sub2.req.ID = some a2
      rw [mapLookup_mapInsert_ne _ _ _ _ hrne]
      exact hreq2
  · intro a2 sub2 h2 hslot2
    replace h2 : mapLookup (mapInsert st.heap st.nextAddr
      (newSubscription { method := m, ID := reqId } rt)) a2 = some sub2 := h2
    by_cases hane : a2 = st.nextAddr
    · subst hane
      rw [mapLookup_mapInsert_self] at h2
      injection h2 with h2
      subst h2
      show mapLookup (mapInsert st.byRequestID reqId st.nextAddr) reqId = some st.nextAddr
      rw [mapLookup_mapInsert_self]
    · rw [mapLookup_mapInsert_ne _ _ _ _ hane] at h2
      have hl := hg.liveOk a2 sub2 h2 hslot2
      have hrne : sub2.req.ID ≠ reqId := by
        intro heq
        rw [heq, hfresh] at hl
        cases hl
      show mapLookup (mapInsert st.byRequestID reqId st.nextAddr) sub2.req.ID = some a2
      rw [mapLookup_mapInsert_ne _ _ _ _ hrne]
      exact hl
  · intro a2 sub2 h2 hslot2 hsid2
    replace h2 : mapLookup (mapInsert st.heap st.nextAddr
      (newSubscription { method := m, ID := reqId } rt)) a2 = some sub2 := h2
    by_cases hane : a2 = st.nextAddr
    · subst hane
      rw [mapLookup_mapInsert_self] at h2
      injection h2 with h2
      rw [← h2] at hsid2
      exact absurd rfl hsid2
    · rw [mapLookup_mapInsert_ne _ _ _ _ hane] at h2
      exact hg.ackedOk a2 sub2 h2 hslot2 hsid2

theorem handleNewSubscriptionMessage_preserves (st : WSState) (r s : Nat)
    (st2 : WSState) (hg : GoodState st) (a : Nat) (sub : Subscription)
    (hre : mapLookup st.byRequestID r = some a)
    (hh : mapLookup st.heap a = some sub)
    (hzero : sub.subID = 0) (hsnz : s ≠ 0)
    (hfresh : mapLookup st.byWSSubID s = none)
    (h : handleNewSubscriptionMessage st r s = some st2) : GoodState st2 := by
  obtain ⟨subp, hhp, hridp, hslotp⟩ := hg.pendingOk r a hre
  rw [hh] at hhp
  injection hhp with hhp
  subst hhp
  simp only [handleNewSubscriptionMessage, hre, hh] at h
  injection h with h
  subst h
  constructor
  · intro a2 h2
    have hane : a2 ≠ a := by
      intro heq
      subst heq
      rw [hg.addrBound a2 h2] at hh
      cases hh
    show mapLookup (mapInsert st.heap a _) a2 = none
    rw [mapLookup_mapInsert_ne _ _ _ _ hane]
    exact hg.addrBound a2 h2
  · intro r2 a2 h2
    replace h2 : mapLookup st.byRequestID r2 = some a2 := h2
    obtain ⟨sub2, hh2, hrid2, hslot2⟩ := hg.pendingOk r2 a2 h2
    by_cases hane : a2 = a
    · subst hane
      rw [hh] at hh2
      injection hh2 with hh2
      subst hh2
      refine ⟨{ sub with subID := s }, ?_, hrid2, hslot2⟩
      show mapLookup (mapInsert st.heap a2 _) a2 = some _
      rw [mapLookup_mapInsert_self]
    · refine ⟨sub2, ?_, hrid2, hslot2⟩
      show mapLookup (mapInsert st.heap a _) a2 = some sub2
      rw [mapLookup_mapInsert_ne _ _ _ _ hane]
      exact hh2
  · intro s2 a2 h2
    replace h2 : mapLookup (mapInsert st.byWSSubID s a) s2 = some a2 := h2
    by_cases hs2 : s2 = s
    · rw [hs2, mapLookup_mapInsert_self] at h2
      have ha2 : a2 = a := (Option.some.inj h2).symm
      rw [hs2, ha2]
      refine ⟨{ sub with subID := s }, ?_, rfl, hsnz, ?_⟩
      · show mapLookup (mapInsert st.heap a _) a = some _
        rw [mapLookup_mapInsert_self]
      · show mapLookup st.byRequestID sub.req.ID = some a
        rw [hridp]
        exact hre
    · rw [mapLookup_mapInsert_ne _ _ _ _ hs2] at h2
      obtain ⟨sub2, hh2, hsid2, hs2nz, hreq2⟩ := hg.activeOk s2 a2 h2
      have hane : a2 ≠ a := by
        intro heq
        subst heq
        rw [hh] at hh2
        injection hh2 with hh2
        rw [← hh2, hzero] at hsid2
        exact hs2nz hsid2.symm
      refine ⟨sub2, ?_, hsid2, hs2nz, hreq2⟩
      show mapLookup (mapInsert st.heap a _) a2 = some sub2
      rw [mapLookup_mapInsert_ne _ _ _ _ hane]
      exact hh2
  · intro a2 sub2 h2 hslot2
    replace h2 : mapLookup (mapInsert st.heap a { sub with subID := s }) a2 =
      some sub2 := h2
    by_cases hane : a2 = a
    · subst hane
      rw [mapLookup_mapInsert_self] at h2
      injection h2 with h2
      subst h2
      show mapLookup st.byRequestID sub.req.ID = some a2
      rw [hridp]
      exact hre
    · rw [mapLookup_mapInsert_ne _ _ _ _ hane] at h2
      exact hg.liveOk a2 sub2 h2 hslot2
  · intro a2 sub2 h2 hslot2 hsid2
    replace h2 : mapLookup (mapInsert st.heap a { sub with subID := s }) a2 =
      some sub2 := h2
    by_cases hane : a2 = a
    · subst hane
      rw [mapLookup_mapInsert_self] at h2
      injection h2 with h2
      rw [← h2]
      show mapLookup (mapInsert st.byWSSubID s a2) s = some a2
      rw [mapLookup_mapInsert_self]
    · rw [mapLookup_mapInsert_ne _ _ _ _ hane] at h2
      have hold := hg.ackedOk a2 sub2 h2 hslot2 hsid2
      have hsne : sub2.subID ≠ s := by
        intro heq
        rw [heq, hfresh] at hold
        cases hold
      show mapLookup (mapInsert st.byWSSubID s a) sub2.subID = some a2
      rw [mapLookup_mapInsert_ne _ _ _ _ hsne]
      exact hold

theorem handleSubscriptionMessage_preserves (st : WSState) (s : Nat) (f : Frame)
    (st2 : WSState) (hg : GoodState st)
    (h : handleSubscriptionMessage st s f = some st2) : GoodState st2 := by
  rcases hws : mapLookup st.byWSSubID s with _ | a
  · simp only [handleSubscriptionMessage, hws] at h
    injection h with h
    subst h
    exact hg
  · rcases hh : mapLookup st.heap a with _ | sub
    · simp only [handleSubscriptionMessage, hws, hh] at h
      cases h
    · rcases hdec : decodeClientResponse f with _ | res
      · simp only [handleSubscriptionMessage, hws, hh, hdec] at h
        cases h
      · rcases res with e | v
        · simp only [handleSubscriptionMessage, hws, hh, hdec] at h
          exact closeSubscription_preserves st sub.req.ID _ st2 hg h
        · by_cases hcap : streamCapacity ≤ sub.stream.length
          · simp only [handleSubscriptionMessage, hws, hh, hdec, if_pos hcap] at h
            exact closeSubscription_preserves st sub.req.ID _ st2 hg h
          · simp only [handleSubscriptionMessage, hws, hh, hdec, if_neg hcap] at h
            injection h with h
            subst h
            constructor
            · intro a2 h2
              have hane : a2 ≠ a := by
                intro heq
                subst heq
                rw [hg.addrBound a2 h2] at hh
                cases hh
              show mapLookup (mapInsert st.heap a _) a2 = none
              rw [mapLookup_mapInsert_ne _ _ _ _ hane]
              exact hg.addrBound a2 h2
            · intro r2 a2 h2
              replace h2 : mapLookup st.byRequestID r2 = some a2 := h2
              obtain ⟨sub2, hh2, hrid2, hslot2⟩ := hg.pendingOk r2 a2 h2
              by_cases hane : a2 = a
              · subst hane
                rw [hh] at hh2
                injection hh2 with hh2
                subst hh2
                refine ⟨{ sub with stream := sub.stream ++ [v] }, ?_, hrid2, hslot2⟩
                show mapLookup (mapInsert st.heap a2 _) a2 = some _
                rw [mapLookup_mapInsert_self]
              · refine ⟨sub2, ?_, hrid2, hslot2⟩
                show mapLookup (mapInsert st.heap a _) a2 = some sub2
                rw [mapLookup_mapInsert_ne _ _ _ _ hane]
                exact hh2
            · intro s2 a2 h2
              replace h2 : mapLookup st.byWSSubID s2 = some a2 := h2
              obtain ⟨sub2, hh2, hsid2, hs2nz, hreq2⟩ := hg.activeOk s2 a2 h2
              by_cases hane : a2 = a
              · subst hane
                rw [hh] at hh2
                injection hh2 with hh2
                subst hh2
                refine ⟨{ sub with stream := sub.stream ++ [v] }, ?_, hsid2, hs2nz, hreq2⟩
                show mapLookup (mapInsert st.heap a2 _) a2 = some _
                rw [mapLookup_mapInsert_self]
              · refine ⟨sub2, ?_, hsid2, hs2nz, hreq2⟩
                show mapLookup (mapInsert st.heap a _) a2 = some sub2
                rw [mapLookup_mapInsert_ne _ _ _ _ hane]
                exact hh2
            · intro a2 sub2 h2 hslot2
              replace h2 : mapLookup (mapInsert st.heap a
                { sub with stream := sub.stream ++ [v] }) a2 = some sub2 := h2
              by_cases hane : a2 = a
              · subst hane
                rw [mapLookup_mapInsert_self] at h2
                injection h2 with h2
                subst h2
                exact hg.liveOk a2 sub hh hslot2
              · rw [mapLookup_mapInsert_ne _ _ _ _ hane] at h2
                exact hg.liveOk a2 sub2 h2 hslot2
            · intro a2 sub2 h2 hslot2 hsid2
              replace h2 : mapLookup (mapInsert st.heap a
                { sub with stream := sub.stream ++ [v] }) a2 = some sub2 := h2
              by_cases hane : a2 = a
              · subst hane
                rw [mapLookup_mapInsert_self] at h2
                injection h2 with h2
                subst h2
                exact hg.ackedOk a2 sub hh hslot2 hsid2
              · rw [mapLookup_mapInsert_ne _ _ _ _ hane] at h2
                exact hg.ackedOk a2 sub2 h2 hslot2 hsid2

theorem pushErrAll_none_preserved (e : Option WSError) :
    ∀ (entries : List (Nat × Nat)) (heap heap2 : List (Nat × Subscription)),
    pushErrAll heap entries e = some heap2 →
    ∀ a, mapLookup heap a = none → mapLookup heap2 a = none := by
  intro entries
  induction entries with
  | nil =>
    intro heap heap2 h a ha
    simp only [pushErrAll] at h
    injection h with h
    subst h
    exact ha
  | cons p rest ih =>
    obtain ⟨r0, a0⟩ := p
    intro heap heap2 h a ha
    rcases hs : mapLookup heap a0 with _ | sub0
    · simp only [pushErrAll, hs] at h
      cases h
    · rcases hc : chanSend1 sub0.errSlot e with _ | slot2
      · simp only [pushErrAll, hs, hc] at h
        cases h
      · simp only [pushErrAll, hs, hc] at h
        have hane : a ≠ a0 := by
          intro heq
          rw [heq, hs] at ha
          cases ha
        exact ih _ heap2 h a (by rw [mapLookup_mapInsert_ne _ _ _ _ hane]; exact ha)

theorem chanSend1_ne_nil (slot slot2 : List (Option WSError)) (e : Option WSError)
    (h : chanSend1 slot e = some slot2) : slot2 ≠ [] := by
  by_cases hlen : slot.length < 1
  · rw [chanSend1, if_pos hlen] at h
    injection h with h
    subst h
    simp
  · rw [chanSend1, if_neg hlen] at h
    cases h

theorem pushErrAll_no_live (e : Option WSError) :
    ∀ (entries : List (Nat × Nat)) (heap heap2 : List (Nat × Subscription)),
    pushErrAll heap entries e = some heap2 →
    (∀ a sub, mapLookup heap a = some sub → sub.errSlot = [] →
      ∃ r, (r, a) ∈ entries) →
    ∀ a sub, mapLookup heap2 a = some sub → sub.errSlot ≠ [] := by
  intro entries
  induction entries with
  | nil =>
    intro heap heap2 h hin a sub h2 hslot
    simp only [pushErrAll] at h
    injection h with h
    subst h
    obtain ⟨r, hr⟩ := hin a sub h2 hslot
    exact absurd hr (List.not_mem_nil _)
  | cons p rest ih =>
    obtain ⟨r0, a0⟩ := p
    intro heap heap2 h hin
    rcases hs : mapLookup heap a0 with _ | sub0
    · simp only [pushErrAll, hs] at h
      cases h
    · rcases hc : chanSend1 sub0.errSlot e with _ | slot2
      · simp only [pushErrAll, hs, hc] at h
        cases h
      · simp only [pushErrAll, hs, hc] at h
        refine ih _ heap2 h ?_
        intro a sub h2 hslot
        by_cases hane : a = a0
        · subst hane
          rw [mapLookup_mapInsert_self] at h2
          injection h2 with h2
          rw [← h2] at hslot
          exact absurd hslot (chanSend1_ne_nil sub0.errSlot slot2 e hc)
        · rw [mapLookup_mapInsert_ne _ _ _ _ hane] at h2
          obtain ⟨r, hr⟩ := hin a sub h2 hslot
          rcases List.mem_cons.mp hr with heq | hmem
          · injection heq with h1x h2x
            exact absurd h2x hane
          · exact ⟨r, hmem⟩

theorem closeAllSubscription_preserves (st : WSState) (e : Option WSError)
    (st2 : WSState) (hg : GoodState st)
    (h : closeAllSubscription st e = some st2) : GoodState st2 := by
  rcases hp : pushErrAll st.heap st.byRequestID e with _ | heap2
  · simp only [closeAllSubscription, hp] at h
    cases h
  · simp only [closeAllSubscription, hp] at h
    injection h with h
    subst h
    have hin : ∀ a sub, mapLookup st.heap a = some sub → sub.errSlot = [] →
        ∃ r, (r, a) ∈ st.byRequestID := by
      intro a sub hha hsl
      exact ⟨sub.req.ID, mem_of_mapLookup _ _ _ (hg.liveOk a sub hha hsl)⟩
    constructor
    · intro a2 h2
      exact pushErrAll_none_preserved e st.byRequestID st.heap heap2 hp a2
        (hg.addrBound a2 h2)
    · intro r2 a2 h2
      exact absurd h2 (by simp [mapLookup])
    · intro s2 a2 h2
      exact absurd h2 (by simp [mapLookup])
    · intro a2 sub2 h2 hslot2
      exact absurd hslot2
        (pushErrAll_no_live e st.byRequestID st.heap heap2 hp hin a2 sub2 h2)
    · intro a2 sub2 h2 hslot2 _
      exact absurd hslot2
        (pushErrAll_no_live e st.byRequestID st.heap heap2 hp hin a2 sub2 h2)

theorem stepWF_preserves (st : WSState) (op : Op) (st2 : WSState)
    (hg : GoodState st) (h : stepWF st op = some st2) : GoodState st2 := by
  cases op with
  | subscribeOp reqId m um rt =>
    by_cases hfresh : mapLookup st.byRequestID reqId = none
    · simp only [stepWF, if_pos hfresh] at h
      injection h with h
      subst h
      exact subscribe_preserves st reqId m um rt hg hfresh
    · simp only [stepWF, if_neg hfresh] at h
      cases h
  | ackOp r s =>
    rcases hre : mapLookup st.byRequestID r with _ | a
    · simp only [stepWF, hre] at h
      cases h
    · rcases hh : mapLookup st.heap a with _ | sub
      · simp only [stepWF, hre, hh] at h
        cases h
      · by_cases hcond : sub.subID = 0 ∧ s ≠ 0 ∧ mapLookup st.byWSSubID s = none
        · simp only [stepWF, hre, hh, if_pos hcond] at h
          exact handleNewSubscriptionMessage_preserves st r s st2 hg a sub hre hh
            hcond.1 hcond.2.1 hcond.2.2 h
        · simp only [stepWF, hre, hh, if_neg hcond] at h
          cases h
  | notifOp s f => exact handleSubscriptionMessage_preserves st s f st2 hg h
  | closeOp r e => exact closeSubscription_preserves st r e st2 hg h
  | closeAllOp e => exact closeAllSubscription_preserves st (some e) st2 hg h

theorem execWF_preserves (ops : List Op) :
    ∀ (st st2 : WSState), GoodState st → execWF st ops = some st2 → GoodState st2 := by
  induction ops with
  | nil =>
    intro st st2 hg h
    simp only [execWF] at h
    injection h with h
    subst h
    exact hg
  | cons op rest ih =>
    intro st st2 hg h
    rcases hs : stepWF st op with _ | stm
    · simp only [execWF, hs] at h
      cases h
    · simp only [execWF, hs] at h
      exact ih stm st2 (stepWF_preserves st op stm hg hs) h

/-- C3 counterexample: after a subscribe and its acknowledgement, the
live subscription is simultaneously in the pending index (key 1) and in
the active index (key 7) — the promotion never deletes the pending
entry, contradicting the claim that after acknowledgement the
subscription exists only in the active index. -/
theorem c3_counterexample_in_both_indices :
    execWF initWSState c3ops = some c3stFinal ∧
    mapLookup c3stFinal.byRequestID 1 = some 0 ∧
    mapLookup c3stFinal.byWSSubID 7 = some 0 ∧
    (∃ sub, mapLookup c3stFinal.heap 0 = some sub ∧ sub.errSlot = []) := by
  refine ⟨by decide, rfl, rfl,
    ⟨{ req := { method := "programSubscribe", ID := 1 }
       subID := 7
       stream := []
       errSlot := []
       reflectType := 0
       unsubscriptionMethod := "" }, rfl, rfl⟩⟩

/-- C3 amended: over every protocol-conformant operation sequence from
a fresh client, a live Subscription is in the pending index from
creation until it is closed; from acknowledgement on (nonzero assigned
subscription id) it is additionally in the active index under its id —
so after acknowledgement it is in both indices simultaneously (the
pending entry is not removed on promotion), before acknowledgement it
is in the pending index only, and it is never in neither while live. -/
theorem c3_registry_invariant (ops : List Op) (st : WSState)
    (h : execWF initWSState ops = some st) :
    (∀ s a, mapLookup st.byWSSubID s = some a →
      ∃ sub, mapLookup st.heap a = some sub ∧ sub.subID = s ∧
        mapLookup st.byRequestID sub.req.ID = some a) ∧
    (∀ a sub, mapLookup st.heap a = some sub → sub.errSlot = [] →
      mapLookup st.byRequestID sub.req.ID = some a) ∧
    (∀ a sub, mapLookup st.heap a = some sub → sub.errSlot = [] → sub.subID ≠ 0 →
      mapLookup st.byWSSubID sub.subID = some a ∧
        mapLookup st.byRequestID sub.req.ID = some a) ∧
    (∀ a sub, mapLookup st.heap a = some sub → sub.errSlot = [] → sub.subID = 0 →
      ∀ s, mapLookup st.byWSSubID s ≠ some a) := by
  have hg := execWF_preserves ops initWSState st goodState_init h
  refine ⟨?_, hg.liveOk, ?_, ?_⟩
  · intro s a h2
    obtain ⟨sub, h3, h4, _, h5⟩ := hg.activeOk s a h2
    exact ⟨sub, h3, h4, h5⟩
  · intro a sub h2 hlive hnz
    exact ⟨hg.ackedOk a sub h2 hlive hnz, hg.liveOk a sub h2 hlive⟩
  · intro a sub h2 _ hzero s hcontra
    obtain ⟨sub2, h3, h4, h5, _⟩ := hg.activeOk s a hcontra
    rw [h2] at h3
    injection h3 with h3
    rw [← h3, hzero] at h4
    exact h5 h4.symm

theorem c3_registry_invariant_witness :
    execWF initWSState c3ops = some c3stFinal ∧
    ((∀ s a, mapLookup c3stFinal.byWSSubID s = some a →
      ∃ sub, mapLookup c3stFinal.heap a = some sub ∧ sub.subID = s ∧
        mapLookup c3stFinal.byRequestID sub.req.ID = some a) ∧
    (∀ a sub, mapLookup c3stFinal.heap a = some sub → sub.errSlot = [] →
      mapLookup c3stFinal.byRequestID sub.req.ID = some a) ∧
    (∀ a sub, mapLookup c3stFinal.heap a = some sub → sub.errSlot = [] →
      sub.subID ≠ 0 →
      mapLookup c3stFinal.byWSSubID sub.subID = some a ∧
        mapLookup c3stFinal.byRequestID sub.req.ID = some a) ∧
    (∀ a sub, mapLookup c3stFinal.heap a = some sub → sub.errSlot = [] →
      sub.subID = 0 → ∀ s, mapLookup c3stFinal.byWSSubID s ≠ some a)) :=
  ⟨by decide, c3_registry_invariant c3ops c3stFinal (by decide)⟩

end SolanaWS
